import Mathlib

/-!
Shallow embedding of the write-tracer repository (Go + eBPF C) for checking
its natural-language specification.

Embedded source artifacts:
* the eBPF probe `write_tracer.bpf.c` (`trace_write_enter`, `is_target_fd`,
  `trace_sched_process_fork`, `trace_sched_process_exit`);
* the user-space event formatter `internal/event` (two versions present in
  the repository: one capping the data slice at `min(count, 256)` and one
  slicing `Data[:Count]` uncapped);
* the PID registry `internal/pidmgr` (`RegisterPID`, `UnregisterPID`,
  `checkLiveness`) together with the liveness-monitor wiring in
  `cmd/tracer/main.go`;
* the ring-buffer decoder in `internal/ebpf/processor.go` (`readRingBuffer`
  via `binary.Read`, little-endian) and the dispatcher `processEvents`;
* the rotating file sink `internal/output` (`FileWriter.Write`,
  `FileWriter.rotate`) in the version invoked by `processor.go`.

Machine integers are modelled as `Nat` with explicit `% 2 ^ 32` where the
source truncates. Fallible operations return `Option` / `Except`; a Go
panic is modelled as `none`.
-/

namespace WriteTracer

/-! ## Kernel probe (write_tracer.bpf.c) -/

/-- `MAX_FDS` from the BPF source. -/
def MAX_FDS : Nat := 64

/-- `MAX_DATA_SIZE` from the BPF source. -/
def MAX_DATA_SIZE : Nat := 256

/-- `struct config` in the BPF source: `target_pid`, `num_fds` and the
`target_fds[64]` array (modelled as a list read through `List.getD`). -/
structure BpfConfig where
  target_pid : Nat
  num_fds : Nat
  target_fds : List Nat
deriving DecidableEq

/-- The loop body of `is_target_fd`: iterate `i` upward while `i < MAX_FDS`
(the structural fuel) and `i < cfg->num_fds`, returning 1 on the first
`cfg->target_fds[i] == fd`. -/
def is_target_fd_aux (cfg : BpfConfig) (fd : Nat) : Nat → Nat → Bool
  | 0, _ => false
  | fuel + 1, i =>
    if cfg.num_fds ≤ i then false
    else if cfg.target_fds.getD i 0 = fd then true
    else is_target_fd_aux cfg fd fuel (i + 1)

/-- `is_target_fd` from the BPF source: a linear scan of
`target_fds[0 .. min(num_fds, MAX_FDS))`. -/
def is_target_fd (cfg : BpfConfig) (fd : Nat) : Bool :=
  is_target_fd_aux cfg fd MAX_FDS 0

/-- `struct write_event` as filled in by the probe. `comm` and `data` are
byte lists; `data` always holds `MAX_DATA_SIZE` bytes of ring memory. -/
structure WriteEvent where
  timestamp : Nat
  count : Nat
  pid : Nat
  tid : Nat
  fd : Nat
  comm : List Nat
  data : List Nat
deriving DecidableEq

/-- The syscall-argument context of `sys_enter_write`: `args[0]` (fd, u64),
`args[1]` (the user buffer, as the byte list it points to) and `args[2]`
(count, u64). -/
structure SysEnterWriteCtx where
  fd : Nat
  buf : List Nat
  count : Nat

/-- Ambient kernel state seen by one probe invocation: slot 0 of
`config_map` (if populated), the `tracked_pids` hash set, whether
`bpf_ringbuf_reserve` succeeds, the clock value and the current comm. -/
structure ProbeCtx where
  config_map : Option BpfConfig
  tracked_pids : Finset Nat
  ring_ok : Bool
  ktime : Nat
  comm : List Nat

/-- `__u32 data_size = count < MAX_DATA_SIZE ? count : MAX_DATA_SIZE;`
(the ternary assigns into a `__u32`, hence the explicit truncation). -/
def probeDataSize (count : Nat) : Nat :=
  if count < MAX_DATA_SIZE then count % 2 ^ 32 else MAX_DATA_SIZE

/-- The bytes the probe places in `event->data`: `bpf_probe_read_user`
copies `data_size` bytes from the user buffer; the rest of the fixed
256-byte field is untouched ring memory (modelled as zeros). -/
def probeData (buf : List Nat) (count : Nat) : List Nat :=
  buf.take (probeDataSize count) ++
    List.replicate (MAX_DATA_SIZE - (buf.take (probeDataSize count)).length) 0

/-- `trace_write_enter`: returns `some ev` when `bpf_ringbuf_submit` runs
on `ev`, and `none` when the probe returns without emitting. The order of
checks mirrors the source: config lookup, tracked-TID lookup, FD filter,
ring reservation, then population and submit. -/
def trace_write_enter (st : ProbeCtx) (pid tid : Nat) (ctx : SysEnterWriteCtx) :
    Option WriteEvent :=
  match st.config_map with
  | none => none
  | some cfg =>
    if tid ∉ st.tracked_pids then none
    else if 0 < cfg.num_fds ∧ is_target_fd cfg (ctx.fd % 2 ^ 32) = false then none
    else if st.ring_ok = false then none
    else some
      { timestamp := st.ktime
        count := ctx.count
        pid := pid
        tid := tid
        fd := ctx.fd % 2 ^ 32
        comm := st.comm
        data := probeData ctx.buf ctx.count }

/-- `trace_sched_process_fork`: if the parent TID is tracked, insert the
child TID (`BPF_ANY`). -/
def trace_sched_process_fork (tracked : Finset Nat) (parent_tid child_tid : Nat) :
    Finset Nat :=
  if parent_tid ∈ tracked then insert child_tid tracked else tracked

/-- `trace_sched_process_exit`: unconditionally delete the exiting TID. -/
def trace_sched_process_exit (tracked : Finset Nat) (tid : Nat) : Finset Nat :=
  tracked.erase tid

/-! ## User-space event formatter (internal/event) -/

/-- `strings.TrimRight(s, "\n\r")` over a byte list: drop trailing bytes
equal to 10 or 13. -/
def trimRightNlCr (l : List Nat) : List Nat :=
  (l.reverse.dropWhile (fun b => b == 10 || b == 13)).reverse

/-- `bytes.TrimRight(b, "\x00")` over a byte list. -/
def trimRightNul (l : List Nat) : List Nat :=
  (l.reverse.dropWhile (fun b => b == 0)).reverse

/-- The Go slice expression `arr[:n]` over a slice of the fixed-size array
`arr`: in bounds it yields the first `n` elements, out of bounds it panics
(modelled as `none`). -/
def goSlice (arr : List Nat) (n : Nat) : Option (List Nat) :=
  if n ≤ arr.length then some (arr.take n) else none

/-- The pre-trim byte slice taken by the capped formatter version:
`dataLen := min(e.Count, config.MaxDataSize); e.Data[:dataLen]`. -/
def renderedDataCapped (e : WriteEvent) : Option (List Nat) :=
  goSlice e.data (min e.count MAX_DATA_SIZE)

/-- The pre-trim byte slice taken by the uncapped formatter version:
`e.Data[:e.Count]` with no bound on `e.Count`. -/
def renderedDataUncapped (e : WriteEvent) : Option (List Nat) :=
  goSlice e.data e.count

/-- `WriteEvent.DataString` in the capped version: slice then trim
trailing newline/carriage-return bytes. -/
def dataStringCapped (e : WriteEvent) : Option (List Nat) :=
  (renderedDataCapped e).map trimRightNlCr

/-- `WriteEvent.DataString` in the uncapped version. -/
def dataStringUncapped (e : WriteEvent) : Option (List Nat) :=
  (renderedDataUncapped e).map trimRightNlCr

/-- The field values of the JSON object built by `WriteEvent.String`
(capped version): comm is NUL-trimmed, data is sliced and trimmed. -/
structure EventLine where
  timestamp : Nat
  pid : Nat
  tid : Nat
  comm : List Nat
  fd : Nat
  count : Nat
  data : List Nat
deriving DecidableEq

/-- `WriteEvent.String` (capped version): `none` models a slice panic. -/
def eventLineCapped (e : WriteEvent) : Option EventLine :=
  (dataStringCapped e).map fun d =>
    { timestamp := e.timestamp, pid := e.pid, tid := e.tid
      comm := trimRightNul e.comm, fd := e.fd, count := e.count, data := d }

/-- `WriteEvent.String` (uncapped version). -/
def eventLineUncapped (e : WriteEvent) : Option EventLine :=
  (dataStringUncapped e).map fun d =>
    { timestamp := e.timestamp, pid := e.pid, tid := e.tid
      comm := trimRightNul e.comm, fd := e.fd, count := e.count, data := d }

/-! ## Configuration (internal/config) and dispatcher (internal/ebpf/processor.go) -/

/-- The `config.Config` fields the embedded components consult. -/
structure GoConfig where
  trackingIntervalSec : Nat
  fileOutputSet : Bool
  lokiEndpointSet : Bool
  silenceStdout : Bool
deriving DecidableEq

/-- What `processEvents` does with one event received from the channel:
`fmt.Println(ev.String())` (unconditionally), `fw.Write(line)`, and
`loki.Push(ev)` when a Loki endpoint is configured. -/
structure DispatchResult where
  stdoutLines : List (Option EventLine)
  fileLines : List (Option EventLine)
  lokiEvents : List WriteEvent
deriving DecidableEq

/-- The per-event body of the `processEvents` loop. -/
def processOneEvent (cfg : GoConfig) (ev : WriteEvent) : DispatchResult :=
  { stdoutLines := [eventLineCapped ev]
    fileLines := [eventLineCapped ev]
    lokiEvents := if cfg.lokiEndpointSet then [ev] else [] }

/-! ## Ring-buffer decoder (internal/ebpf/processor.go, readRingBuffer) -/

/-- Little-endian byte-list decoding. -/
def leNat : List Nat → Nat
  | [] => 0
  | b :: rest => b % 256 + 256 * leNat rest

/-- Size of the wire `WriteEvent` struct in bytes. -/
def WRITE_EVENT_SIZE : Nat := 304

/-- `binary.Read(bytes.NewReader(record.RawSample), binary.LittleEndian, &ev)`:
fails (event skipped) exactly when the record holds fewer bytes than the
304-byte struct; otherwise it consumes the first 304 bytes, little-endian
per field, skipping the 4 padding bytes at offset 28. -/
def decodeWriteEvent (raw : List Nat) : Option WriteEvent :=
  if raw.length < WRITE_EVENT_SIZE then none
  else some
    { timestamp := leNat (raw.take 8)
      count := leNat ((raw.drop 8).take 8)
      pid := leNat ((raw.drop 16).take 4)
      tid := leNat ((raw.drop 20).take 4)
      fd := leNat ((raw.drop 24).take 4)
      comm := (raw.drop 32).take 16
      data := (raw.drop 48).take 256 }

/-! ## PID registry (internal/pidmgr/pidmgr.go) -/

/-- Registry state plus the user-space view of the kernel `tracked_pids`
map: the registry maps a parent PID to its snapshot thread list (the
`TrackedProcess` entry, wall-clock timestamp abstracted away). -/
structure PState where
  registry : List (Nat × List Nat)
  kmap : Finset Nat
deriving DecidableEq

deriving instance DecidableEq for Except

/-- The error outcomes of the registry operations. -/
inductive RegErr
  | alreadyRegistered
  | notFound
  | kernelMapError
  | notRegistered
deriving DecidableEq

/-- Ambient environment of a registry call: the parsed `/proc/<pid>/task`
listing (`none` when the directory is missing) and which TIDs the kernel
map rejects on `Update`. -/
structure PidEnv where
  procTask : Nat → Option (List Nat)
  insertFails : Nat → Bool

/-- Go `map[uint32]*TrackedProcess` lookup over the association list. -/
def regLookup (pid : Nat) : List (Nat × List Nat) → Option (List Nat)
  | [] => none
  | e :: rest => if e.1 = pid then some e.2 else regLookup pid rest

/-- The insert loop of `RegisterPID`: update the kernel map TID by TID; on
the first failing update, return the map as built so far (`Except.error`). -/
def insertTids (env : PidEnv) : Finset Nat → List Nat → Except (Finset Nat) (Finset Nat)
  | m, [] => .ok m
  | m, t :: rest =>
    if env.insertFails t then .error m
    else insertTids env (insert t m) rest

/-- The rollback loop of `RegisterPID` (and the delete loops of
`UnregisterPID` / `checkLiveness`): delete every TID of the list. -/
def deleteTids (m : Finset Nat) (tids : List Nat) : Finset Nat :=
  tids.foldl Finset.erase m

/-- `RegisterPID`: already-registered check, `/proc/<pid>/task` read,
per-TID kernel-map insert with full-list rollback on failure, then the
registry gains the entry. -/
def registerPID (env : PidEnv) (st : PState) (pid : Nat) : Except RegErr Nat × PState :=
  if (regLookup pid st.registry).isSome then (.error .alreadyRegistered, st)
  else
    match env.procTask pid with
    | none => (.error .notFound, st)
    | some tids =>
      match insertTids env st.kmap tids with
      | .error m => (.error .kernelMapError, { st with kmap := deleteTids m tids })
      | .ok m => (.ok tids.length, { registry := st.registry ++ [(pid, tids)], kmap := m })

/-- `UnregisterPID`: not-registered check, delete every recorded TID from
the kernel map (delete errors only logged), drop the registry entry. -/
def unregisterPID (st : PState) (pid : Nat) : Except RegErr Unit × PState :=
  match regLookup pid st.registry with
  | none => (.error .notRegistered, st)
  | some tids =>
    (.ok (), { registry := st.registry.filter (fun e => e.1 ≠ pid)
               kmap := deleteTids st.kmap tids })

/-- The kernel-map effect of one `checkLiveness` pass: for every entry
whose parent is dead, delete all its recorded TIDs. -/
def eraseDeadTids (alive : Nat → Bool) (entries : List (Nat × List Nat))
    (m : Finset Nat) : Finset Nat :=
  entries.foldl (fun m e => if alive e.1 then m else deleteTids m e.2) m

/-- `checkLiveness`: for each tracked parent whose `/proc/<pid>` is gone,
delete its TIDs from the kernel map and remove the registry entry. -/
def checkLiveness (alive : Nat → Bool) (st : PState) : PState :=
  { registry := st.registry.filter (fun e => alive e.1)
    kmap := eraseDeadTids alive st.registry st.kmap }

/-! ## Liveness-monitor wiring (cmd/tracer/main.go) -/

/-- `cmd/tracer/main.go` constructs the registry as
`pidmgr.New(coll.Maps["tracked_pids"], 5*time.Second)`: the liveness check
interval is the literal 5 seconds. -/
def mainCheckIntervalSec : Nat := 5

/-- The check interval actually wired into the liveness monitor, as a
function of the parsed configuration: `main` ignores
`cfg.TrackingInterval` here and passes the 5-second literal. -/
def livenessCheckIntervalSec (_cfg : GoConfig) : Nat := mainCheckIntervalSec

/-- `time.NewTicker` fire times: the sweep runs at every positive multiple
of the check interval. -/
def isSweepTime (t : Nat) : Bool :=
  decide (t % mainCheckIntervalSec = 0 ∧ t ≠ 0)

/-- All sweep times up to and including time `v` (seconds), in increasing
order. -/
def sweepTimesUpTo (v : Nat) : List Nat :=
  (List.range (v + 1)).filter isSweepTime

/-- Registry state at time `v`: the initial state with one `checkLiveness`
pass applied at each sweep time `u ≤ v`, using the processes alive at `u`. -/
def stateAt (aliveAt : Nat → Nat → Bool) (st0 : PState) (v : Nat) : PState :=
  (sweepTimesUpTo v).foldl (fun st u => checkLiveness (aliveAt u) st) st0

/-! ## File sink (internal/output, version called by processor.go) -/

/-- Filesystem as the file sink sees it: whether `<path>` currently
exists, and which numeric backups `<path>.N` exist. -/
structure SinkFS where
  currentExists : Bool
  backups : Finset Nat
deriving DecidableEq

/-- `FileWriter` state: `path == ""`, `maxRecords`, the record counter and
whether a file handle is open. -/
structure FileWriterSt where
  pathEmpty : Bool
  maxRecords : Nat
  count : Nat
  fileOpen : Bool
deriving DecidableEq

/-- `FileWriter.rotate` in the version used by `processor.go`: close the
handle, `os.Remove(path + ".1")`, `os.Rename(path, path + ".1")`, then
`open()` (which creates a fresh current file and resets the counter). -/
def fwRotate (fs : SinkFS) : SinkFS :=
  let b := fs.backups.erase 1
  { currentExists := true
    backups := if fs.currentExists then insert 1 b else b }

/-- `FileWriter.Write`: no-op on empty path; lazily open; append the line;
rotate once the counter reaches `maxRecords`. -/
def fwWrite (w : FileWriterSt) (fs : SinkFS) : FileWriterSt × SinkFS :=
  if w.pathEmpty then (w, fs)
  else
    let w1 := if w.fileOpen then w else { w with fileOpen := true, count := 0 }
    let fs1 := if w.fileOpen then fs else { fs with currentExists := true }
    let w2 := { w1 with count := w1.count + 1 }
    if w.maxRecords ≤ w2.count then
      ({ w2 with count := 0, fileOpen := true }, fwRotate fs1)
    else (w2, fs1)

/-- `k` successive rotations. -/
def fwRotateIter : Nat → SinkFS → SinkFS
  | 0, fs => fs
  | k + 1, fs => fwRotateIter k (fwRotate fs)

/-! ## Concrete fixtures used by witnesses and counterexamples -/

/-- Probe context fixture: config with one target FD (1), TID 42 tracked,
ring reservation succeeding. -/
def probeCtxW : ProbeCtx :=
  { config_map := some { target_pid := 0, num_fds := 1, target_fds := [1] }
    tracked_pids := {42}
    ring_ok := true
    ktime := 1000
    comm := [116, 120] }

/-- Syscall context fixture: `write(1, "hi\n", 3)`. -/
def sysCtxW : SysEnterWriteCtx :=
  { fd := 1, buf := [104, 105, 10], count := 3 }

/-- The event the probe emits on the fixture. -/
def probeEvW : WriteEvent :=
  { timestamp := 1000, count := 3, pid := 7, tid := 42, fd := 1
    comm := [116, 120], data := probeData [104, 105, 10] 3 }

/-- Registry environment fixture for the rollback counterexample: PID 7
has threads 10 and 11, and the kernel map rejects the insert of TID 11. -/
def envRollbackCex : PidEnv :=
  { procTask := fun p => if p = 7 then some [10, 11] else none
    insertFails := fun t => t = 11 }

/-- Pre-call state for the rollback counterexample: TID 10 is already in
the kernel map (for example enrolled by the fork hook), registry empty. -/
def stRollbackCex : PState :=
  { registry := [], kmap := {10} }

/-- Registry environment fixture in which every insert succeeds. -/
def envOkW : PidEnv :=
  { procTask := fun p => if p = 7 then some [10, 11] else none
    insertFails := fun _ => false }

/-- Liveness fixture: parent PID 7 with recorded TID 10. -/
def stLivenessCex : PState :=
  { registry := [(7, [10])], kmap := {10} }

/-- Liveness fixture: every process is alive before time 6 and dead from
time 6 on. -/
def aliveAtCex (u : Nat) (_p : Nat) : Bool := u < 6

/-- Configuration fixture with `--tracking-interval 1`. -/
def cfgInterval1 : GoConfig :=
  { trackingIntervalSec := 1, fileOutputSet := false
    lokiEndpointSet := false, silenceStdout := false }

/-- Configuration fixture with `--no-stdout` set. -/
def cfgSilenced : GoConfig :=
  { trackingIntervalSec := 5, fileOutputSet := true
    lokiEndpointSet := false, silenceStdout := true }

/-- An event whose `count` field (8192) exceeds the 256-byte data array. -/
def evBigCount : WriteEvent :=
  { timestamp := 0, count := 8192, pid := 1, tid := 1, fd := 1
    comm := List.replicate 16 0, data := List.replicate 256 65 }

/-- An empty filesystem with an existing current file. -/
def fsFresh : SinkFS := { currentExists := true, backups := ∅ }

/-- The state a successful `RegisterPID` of PID 7 produces from the empty
state under `envOkW` (the kernel map written in insertion order). -/
def st1W : PState :=
  { registry := [(7, [10, 11])], kmap := insert 11 (insert 10 ∅) }

/-- File-writer fixture at the rotation threshold. -/
def fwAtThreshold : FileWriterSt :=
  { pathEmpty := false, maxRecords := 1, count := 0, fileOpen := true }

/-! ### Helper lemmas about the FD scan -/

theorem is_target_fd_aux_sound (cfg : BpfConfig) (fd : Nat) :
    ∀ fuel i, is_target_fd_aux cfg fd fuel i = true →
      ∃ j, i ≤ j ∧ j < cfg.num_fds ∧ cfg.target_fds.getD j 0 = fd := by
  intro fuel
  induction fuel with
  | zero => intro i h; simp [is_target_fd_aux] at h
  | succ n ih =>
    intro i h
    unfold is_target_fd_aux at h
    by_cases hn : cfg.num_fds ≤ i
    · simp [hn] at h
    · simp [hn] at h
      rcases h with h | h
      · exact ⟨i, le_refl i, by omega, by simpa [List.getD] using h⟩
      · obtain ⟨j, hj1, hj2, hj3⟩ := ih (i + 1) h
        exact ⟨j, by omega, hj2, hj3⟩

theorem is_target_fd_sound (cfg : BpfConfig) (fd : Nat)
    (h : is_target_fd cfg fd = true) :
    ∃ j, j < cfg.num_fds ∧ cfg.target_fds.getD j 0 = fd := by
  obtain ⟨j, _, hj2, hj3⟩ := is_target_fd_aux_sound cfg fd MAX_FDS 0 h
  exact ⟨j, hj2, hj3⟩

/-- Shape of any event the probe submits: every field comes from the
population code between reservation and `bpf_ringbuf_submit`. -/
theorem trace_write_enter_emit_shape (st : ProbeCtx) (pid tid : Nat)
    (ctx : SysEnterWriteCtx) (ev : WriteEvent)
    (h : trace_write_enter st pid tid ctx = some ev) :
    ev = { timestamp := st.ktime, count := ctx.count, pid := pid, tid := tid
           fd := ctx.fd % 2 ^ 32, comm := st.comm
           data := probeData ctx.buf ctx.count } := by
  cases hc : st.config_map with
  | none => simp [trace_write_enter, hc] at h
  | some cfg =>
    simp only [trace_write_enter, hc] at h
    split_ifs at h
    exact (Option.some.inj h).symm

/-- In any submitted event, the FD guard of `trace_write_enter` passed. -/
theorem trace_write_enter_guards (st : ProbeCtx) (pid tid : Nat)
    (ctx : SysEnterWriteCtx) (ev : WriteEvent)
    (h : trace_write_enter st pid tid ctx = some ev) :
    tid ∈ st.tracked_pids ∧
      ∀ cfg, st.config_map = some cfg → 0 < cfg.num_fds →
        is_target_fd cfg (ctx.fd % 2 ^ 32) = true := by
  cases hc : st.config_map with
  | none => simp [trace_write_enter, hc] at h
  | some cfg =>
    simp only [trace_write_enter, hc] at h
    split_ifs at h with h1 h2 h3
    refine ⟨by simpa using h1, ?_⟩
    intro cfg' hcfg hn
    cases Option.some.inj hcfg
    rcases Bool.eq_false_or_eq_true (is_target_fd cfg (ctx.fd % 2 ^ 32)) with hft | hft
    · exact hft
    · exact absurd ⟨hn, hft⟩ h2

/-- C1: for every invocation of the write-syscall probe, an event is
submitted to the ring buffer only if the calling thread's TID is in the
tracked-TID set, and, when the configured FD list is non-empty
(`num_fds > 0`), only if the event's fd equals some entry of
`target_fds[0..num_fds)`; otherwise the probe returns without emitting. -/
theorem write_probe_filter (st : ProbeCtx) (pid tid : Nat)
    (ctx : SysEnterWriteCtx) (ev : WriteEvent)
    (h : trace_write_enter st pid tid ctx = some ev) :
    tid ∈ st.tracked_pids ∧
      ∀ cfg, st.config_map = some cfg → 0 < cfg.num_fds →
        ∃ j, j < cfg.num_fds ∧ cfg.target_fds.getD j 0 = ev.fd := by
  obtain ⟨ht, hg⟩ := trace_write_enter_guards st pid tid ctx ev h
  refine ⟨ht, ?_⟩
  intro cfg hcfg hn
  have hfd : ev.fd = ctx.fd % 2 ^ 32 := by
    rw [trace_write_enter_emit_shape st pid tid ctx ev h]
  rw [hfd]
  exact is_target_fd_sound cfg (ctx.fd % 2 ^ 32) (hg cfg hcfg hn)

set_option maxRecDepth 10000 in
/-- Witness for C1: on the fixture, the probe emits and the conclusion is
evaluated at the concrete inputs. -/
theorem write_probe_filter_witness :
    42 ∈ probeCtxW.tracked_pids ∧
      ∀ cfg, probeCtxW.config_map = some cfg → 0 < cfg.num_fds →
        ∃ j, j < cfg.num_fds ∧ cfg.target_fds.getD j 0 = probeEvW.fd :=
  write_probe_filter probeCtxW 7 42 sysCtxW probeEvW (by decide)

/-- C2: the probe copies exactly `min(count, 256)` bytes of the user
buffer into `data`, and the user-space formatter renders the data field
from exactly its first `min(count, 256)` bytes before trimming, for every
`count` including `count > 256`. -/
theorem bounded_payload_copy_and_render :
    (∀ count : Nat, probeDataSize count = min count MAX_DATA_SIZE) ∧
    (∀ (st : ProbeCtx) (pid tid : Nat) (ctx : SysEnterWriteCtx) (ev : WriteEvent),
      trace_write_enter st pid tid ctx = some ev →
      min ctx.count MAX_DATA_SIZE ≤ ctx.buf.length →
        ev.data.length = MAX_DATA_SIZE ∧
        ev.data.take (min ctx.count MAX_DATA_SIZE) =
          ctx.buf.take (min ctx.count MAX_DATA_SIZE)) ∧
    (∀ e : WriteEvent, e.data.length = MAX_DATA_SIZE →
      renderedDataCapped e = some (e.data.take (min e.count MAX_DATA_SIZE)) ∧
        ∀ l, renderedDataCapped e = some l → l.length = min e.count MAX_DATA_SIZE) := by
  have hsize : ∀ count : Nat, probeDataSize count = min count MAX_DATA_SIZE := by
    intro count
    simp only [probeDataSize, MAX_DATA_SIZE]
    by_cases hlt : count < 256
    · rw [if_pos hlt, Nat.mod_eq_of_lt (by omega)]
      omega
    · rw [if_neg hlt]
      omega
  refine ⟨hsize, ?_, ?_⟩
  · intro st pid tid ctx ev h hbuf
    have hshape := trace_write_enter_emit_shape st pid tid ctx ev h
    have hdata : ev.data = probeData ctx.buf ctx.count := by rw [hshape]
    rw [hdata]
    unfold probeData
    rw [hsize ctx.count]
    have htl : (ctx.buf.take (min ctx.count MAX_DATA_SIZE)).length
        = min ctx.count MAX_DATA_SIZE := by
      rw [List.length_take]
      omega
    constructor
    · rw [List.length_append, List.length_replicate, htl]
      omega
    · rw [List.take_append_of_le_length (by omega), List.take_take]
      simp
  · intro e hlen
    have hle : min e.count MAX_DATA_SIZE ≤ e.data.length := by rw [hlen]; omega
    have hr : renderedDataCapped e = some (e.data.take (min e.count MAX_DATA_SIZE)) := by
      unfold renderedDataCapped goSlice
      simp [hle]
    refine ⟨hr, ?_⟩
    intro l hl
    rw [hr] at hl
    cases Option.some.inj hl
    rw [List.length_take, hlen]
    omega

set_option maxRecDepth 10000 in
/-- Witness for C2: the probe fixture's event holds 256 data bytes whose
`min(count, 256)`-byte prefix equals the user buffer's, and the formatter
fixture renders the first `min(count, 256)` bytes. -/
theorem bounded_payload_witness :
    probeEvW.data.length = MAX_DATA_SIZE ∧
      probeEvW.data.take (min sysCtxW.count MAX_DATA_SIZE) =
        sysCtxW.buf.take (min sysCtxW.count MAX_DATA_SIZE) :=
  bounded_payload_copy_and_render.2.1 probeCtxW 7 42 sysCtxW probeEvW
    (by decide) (by decide)

/-- C3: the tracked-TID set evolves as a step relation under the lineage
hooks: a fork whose parent TID is tracked inserts the child TID (and
changes nothing else), and an exit removes the exiting TID whether or not
it was present. -/
theorem lineage_hooks_step (s : Finset Nat) (p c t : Nat) :
    (p ∈ s → trace_sched_process_fork s p c = insert c s) ∧
    (p ∉ s → trace_sched_process_fork s p c = s) ∧
    t ∉ trace_sched_process_exit s t ∧
    (∀ x ∈ s, x ≠ t → x ∈ trace_sched_process_exit s t) ∧
    (∀ x ∈ trace_sched_process_exit s t, x ∈ s ∧ x ≠ t) := by
  refine ⟨?_, ?_, ?_, ?_, ?_⟩
  · intro h; simp [trace_sched_process_fork, h]
  · intro h; simp [trace_sched_process_fork, h]
  · exact Finset.not_mem_erase t s
  · intro x hx hne; exact Finset.mem_erase.mpr ⟨hne, hx⟩
  · intro x hx
    exact ⟨Finset.mem_of_mem_erase hx, (Finset.mem_erase.mp hx).1⟩

/-- Witness for C3: fork inserts the child of a tracked parent and exit
removes the exiting TID, at concrete sets. -/
theorem lineage_hooks_step_witness :
    trace_sched_process_fork {1} 1 2 = insert 2 {1} ∧
      3 ∉ trace_sched_process_exit {1, 3} 3 :=
  ⟨(lineage_hooks_step {1} 1 2 3).1 (by decide),
   (lineage_hooks_step {1, 3} 1 2 3).2.2.1⟩

/-! ### Helper lemmas about TID-list folds over the kernel map -/

theorem deleteTids_eq_sdiff (l : List Nat) :
    ∀ m : Finset Nat, deleteTids m l = m \ l.toFinset := by
  induction l with
  | nil => intro m; simp [deleteTids]
  | cons t rest ih =>
    intro m
    show deleteTids (m.erase t) rest = _
    rw [ih]
    ext x
    simp [Finset.mem_sdiff, Finset.mem_erase, List.mem_toFinset]
    tauto

theorem insertTids_ok_inv (env : PidEnv) (l : List Nat) :
    ∀ m m', insertTids env m l = .ok m' →
      (∀ t ∈ l, env.insertFails t = false) ∧ m' = m ∪ l.toFinset := by
  induction l with
  | nil =>
    intro m m' h
    have hm : m = m' := by simpa [insertTids] using h
    exact ⟨by simp, by simp [← hm]⟩
  | cons t rest ih =>
    intro m m' h
    by_cases hf : env.insertFails t
    · exact absurd h (by simp [insertTids, hf])
    · have h' : insertTids env (insert t m) rest = .ok m' := by
        simpa [insertTids, hf] using h
      obtain ⟨hall, hm⟩ := ih (insert t m) m' h'
      refine ⟨?_, ?_⟩
      · intro s hs
        rcases List.mem_cons.mp hs with rfl | hs
        · exact Bool.eq_false_iff.mpr hf
        · exact hall s hs
      · rw [hm]
        ext x
        simp [List.mem_toFinset]
        try tauto

theorem insertTids_all_ok (env : PidEnv) (l : List Nat) :
    ∀ m, (∀ t ∈ l, env.insertFails t = false) →
      insertTids env m l = .ok (m ∪ l.toFinset) := by
  induction l with
  | nil => intro m _; simp [insertTids]
  | cons t rest ih =>
    intro m hall
    have hf : env.insertFails t = false := hall t (List.mem_cons_self t rest)
    have := ih (insert t m) (fun s hs => hall s (List.mem_cons_of_mem t hs))
    rw [insertTids, if_neg (by simp [hf]), this]
    congr 1
    ext x
    simp [List.mem_toFinset]
    try tauto

theorem insertTids_error_exists (env : PidEnv) (l : List Nat) :
    ∀ m, (∃ t ∈ l, env.insertFails t = true) →
      ∃ m', insertTids env m l = .error m' := by
  induction l with
  | nil => intro m h; simp at h
  | cons t rest ih =>
    intro m h
    by_cases hf : env.insertFails t
    · exact ⟨m, by simp [insertTids, hf]⟩
    · obtain ⟨s, hs, hfs⟩ := h
      rcases List.mem_cons.mp hs with rfl | hs
    -- the head cannot be the failing TID in this branch
      · exact absurd hfs (by simp [hf])
      · obtain ⟨m', hm'⟩ := ih (insert t m) ⟨s, hs, hfs⟩
        exact ⟨m', by simp [insertTids, hf, hm']⟩

theorem insertTids_error_rollback (env : PidEnv) (l : List Nat) :
    ∀ m m', insertTids env m l = .error m' →
      deleteTids m' l = m \ l.toFinset := by
  induction l with
  | nil => intro m m' h; simp [insertTids] at h
  | cons t rest ih =>
    intro m m' h
    by_cases hf : env.insertFails t
    · have hm : m' = m := by simpa [insertTids, hf] using h.symm
      rw [hm, deleteTids_eq_sdiff]
    · have h' : insertTids env (insert t m) rest = .error m' := by
        simpa [insertTids, hf] using h
      have := ih (insert t m) m' h'
      rw [deleteTids_eq_sdiff] at this ⊢
      have hx : ∀ x, x ∈ m' \ rest.toFinset ↔ x ∈ insert t m \ rest.toFinset := by
        intro x
        rw [this]
      ext x
      have := hx x
      simp [Finset.mem_sdiff, List.mem_toFinset, Finset.mem_insert] at this ⊢
      tauto

/-! ### Helper lemmas about the registry association list -/

theorem regLookup_append_self (p : Nat) (tids : List Nat) :
    ∀ l, regLookup p l = none → regLookup p (l ++ [(p, tids)]) = some tids := by
  intro l
  induction l with
  | nil => intro _; simp [regLookup]
  | cons e rest ih =>
    intro h
    by_cases he : e.1 = p
    · simp [regLookup, he] at h
    · have h' : regLookup p rest = none := by simpa [regLookup, he] using h
      simpa [regLookup, he] using ih h'

theorem regLookup_none_filter (p : Nat) :
    ∀ l, regLookup p l = none →
      l.filter (fun e => e.1 ≠ p) = l := by
  intro l
  induction l with
  | nil => intro _; simp
  | cons e rest ih =>
    intro h
    by_cases he : e.1 = p
    · simp [regLookup, he] at h
    · have h' : regLookup p rest = none := by simpa [regLookup, he] using h
      have hq : (fun e : Nat × List Nat => decide (e.1 ≠ p)) e = true := by
        simpa using he
      rw [List.filter_cons, if_pos (by simpa using hq), ih h']

theorem regLookup_mem (p : Nat) (tids : List Nat) :
    ∀ l, regLookup p l = some tids → (p, tids) ∈ l := by
  intro l
  induction l with
  | nil => intro h; simp [regLookup] at h
  | cons e rest ih =>
    intro h
    rcases e with ⟨a, b⟩
    by_cases he : a = p
    · subst he
      have hb : b = tids := by simpa [regLookup] using h
      subst hb
      exact List.mem_cons_self _ _
    · exact List.mem_cons_of_mem _ (ih (by simpa [regLookup, he] using h))

theorem regLookup_filter_of_alive (alive : Nat → Bool) (p : Nat)
    (hp : alive p = true) :
    ∀ l : List (Nat × List Nat),
      regLookup p (l.filter (fun e => alive e.1)) = regLookup p l := by
  intro l
  induction l with
  | nil => simp
  | cons e rest ih =>
    by_cases he : e.1 = p
    · simp [List.filter_cons, he, hp, regLookup, ih]
    · by_cases ha : alive e.1
      · simp [List.filter_cons, ha, regLookup, he, ih]
      · simp [List.filter_cons, ha, regLookup, he, ih]

theorem regLookup_filter_of_dead (alive : Nat → Bool) (p : Nat)
    (hp : alive p = false) :
    ∀ l : List (Nat × List Nat),
      regLookup p (l.filter (fun e => alive e.1)) = none := by
  intro l
  induction l with
  | nil => simp [regLookup]
  | cons e rest ih =>
    by_cases he : e.1 = p
    · simp [List.filter_cons, he, hp, ih]
    · by_cases ha : alive e.1
      · simp [List.filter_cons, ha, regLookup, he, ih]
      · simp [List.filter_cons, ha, ih]

set_option maxRecDepth 10000 in
/-- C10 counterexample: the uncapped formatter version is not total — on
an event with `count = 8192` (any `count > 256`) the slice `Data[:Count]`
is out of range for the 256-byte array, so `DataString` (and `String`)
panic; the claim that both formatter versions never panic is false. -/
theorem formatter_uncapped_panics :
    256 < evBigCount.count ∧
      dataStringUncapped evBigCount = none ∧
      eventLineUncapped evBigCount = none := by decide

/-- C10 amended: the capped formatter functions are total for every event
with the wire-sized 256-byte data array, for every `count` up to the full
u64 range; the uncapped versions are total exactly when `count ≤ 256`. -/
theorem formatter_totality (e : WriteEvent) (hlen : e.data.length = MAX_DATA_SIZE) :
    (dataStringCapped e).isSome = true ∧
      (eventLineCapped e).isSome = true ∧
      ((dataStringUncapped e).isSome = true ↔ e.count ≤ MAX_DATA_SIZE) ∧
      ((eventLineUncapped e).isSome = true ↔ e.count ≤ MAX_DATA_SIZE) := by
  have hcap : goSlice e.data (min e.count MAX_DATA_SIZE)
      = some (e.data.take (min e.count MAX_DATA_SIZE)) := by
    unfold goSlice
    rw [if_pos (by rw [hlen]; omega)]
  have huncap : (goSlice e.data e.count).isSome = true ↔ e.count ≤ MAX_DATA_SIZE := by
    unfold goSlice
    by_cases hc : e.count ≤ e.data.length
    · simp [hc]
      omega
    · simp [hc]
      omega
  refine ⟨?_, ?_, ?_, ?_⟩
  · simp [dataStringCapped, renderedDataCapped, hcap]
  · simp [eventLineCapped, dataStringCapped, renderedDataCapped, hcap]
  · simpa [dataStringUncapped, renderedDataUncapped] using huncap
  · simpa [eventLineUncapped, dataStringUncapped, renderedDataUncapped] using huncap

set_option maxRecDepth 10000 in
/-- Witness for the amended C10 at the `count = 8192` fixture: the capped
formatter succeeds and the uncapped one panics there. -/
theorem formatter_totality_witness :
    (dataStringCapped evBigCount).isSome = true ∧
      (eventLineCapped evBigCount).isSome = true ∧
      ((dataStringUncapped evBigCount).isSome = true ↔ evBigCount.count ≤ MAX_DATA_SIZE) ∧
      ((eventLineUncapped evBigCount).isSome = true ↔ evBigCount.count ≤ MAX_DATA_SIZE) :=
  formatter_totality evBigCount (by decide)

/-- C7: the dispatcher writes the formatted line to stdout even when
`silence_stdout` (`--no-stdout`) is set — `processEvents` calls
`fmt.Println` unconditionally and never consults the flag, contradicting
the flag's own documentation; the per-event behaviour at the failing
input (any event under a silenced config) shows the line still printed
while the file writer receives it and the remote client is skipped only
for lack of an endpoint. -/
theorem dispatcher_ignores_silence_stdout :
    cfgSilenced.silenceStdout = true ∧
      ∀ ev : WriteEvent,
        (processOneEvent cfgSilenced ev).stdoutLines = [eventLineCapped ev] ∧
          (processOneEvent cfgSilenced ev).fileLines = [eventLineCapped ev] :=
  ⟨rfl, fun _ => ⟨rfl, rfl⟩⟩

set_option maxRecDepth 10000 in
/-- C6 counterexample: a 305-byte record is not rejected — `binary.Read`
consumes the first 304 bytes and leaves the surplus unread, so a record
whose length is not 304 still produces an event. -/
theorem decoder_long_record_accepted :
    (List.replicate 305 0).length ≠ WRITE_EVENT_SIZE ∧
      decodeWriteEvent (List.replicate 305 0) ≠ none := by decide

/-- C6 amended: the decoder rejects (produces no event for) exactly the
records shorter than 304 bytes; every record with at least 304 bytes is
decoded, and only its first 304 bytes determine the event. -/
theorem decoder_rejects_short_records (raw : List Nat) :
    (decodeWriteEvent raw = none ↔ raw.length < WRITE_EVENT_SIZE) ∧
      (WRITE_EVENT_SIZE ≤ raw.length →
        decodeWriteEvent raw = decodeWriteEvent (raw.take WRITE_EVENT_SIZE)) := by
  constructor
  · unfold decodeWriteEvent
    by_cases hl : raw.length < WRITE_EVENT_SIZE
    · simp [hl]
    · simp [hl]
  · intro hge
    unfold decodeWriteEvent
    have h1 : ¬raw.length < WRITE_EVENT_SIZE := by omega
    have h2 : ¬(raw.take WRITE_EVENT_SIZE).length < WRITE_EVENT_SIZE := by
      rw [List.length_take]
      omega
    rw [if_neg h1, if_neg h2]
    simp only [WRITE_EVENT_SIZE] at hge ⊢
    congr 1
    simp [List.take_take, List.drop_take]

/-- C8 counterexample: in the file-sink version `processor.go` constructs
(the two-argument `NewFileWriter`), rotation keeps a single backup: after
2 rotations from a clean start only `<path>.1` exists, while the claim
(with default `max_backups = 1000`) requires `<path>.1` and `<path>.2`. -/
theorem rotation_second_backup_missing :
    (fwRotateIter 2 fsFresh).backups = {1} ∧
      2 ∉ (fwRotateIter 2 fsFresh).backups := by decide

/-- C8 amended: when the record counter reaches `max_records_per_file`,
`Write` rotates and resets the counter; rotation deletes any existing
`<path>.1`, renames the just-closed current file to `<path>.1` and opens a
fresh current file — so after `k ≥ 1` rotations from a clean start exactly
the single backup `<path>.1` exists (no `.N` shifting, no `max_backups`). -/
theorem rotation_single_backup :
    (∀ (w : FileWriterSt) (fs : SinkFS),
      w.pathEmpty = false → w.fileOpen = true → w.maxRecords ≤ w.count + 1 →
        fwWrite w fs = ({ w with count := 0, fileOpen := true }, fwRotate fs)) ∧
    (∀ fs : SinkFS, (fwRotate fs).currentExists = true ∧
      (fs.currentExists = true →
        (fwRotate fs).backups = insert 1 (fs.backups.erase 1)) ∧
      ∀ n, n ≠ 1 → (n ∈ (fwRotate fs).backups ↔ n ∈ fs.backups)) ∧
    (∀ k, 1 ≤ k →
      fwRotateIter k fsFresh = { currentExists := true, backups := {1} }) := by
  have hfix : ∀ j, fwRotateIter j { currentExists := true, backups := ({1} : Finset Nat) }
      = { currentExists := true, backups := {1} } := by
    intro j
    induction j with
    | zero => rfl
    | succ n ih =>
      show fwRotateIter n (fwRotate _) = _
      rw [show fwRotate { currentExists := true, backups := ({1} : Finset Nat) }
        = { currentExists := true, backups := {1} } from by decide]
      exact ih
  refine ⟨?_, ?_, ?_⟩
  · intro w fs h1 h2 h3
    unfold fwWrite
    rw [if_neg (by simp [h1])]
    simp only [h2, if_true]
    rw [if_pos h3]
  · intro fs
    refine ⟨rfl, fun h => by simp [fwRotate, h], ?_⟩
    intro n hn
    unfold fwRotate
    by_cases hc : fs.currentExists <;>
      simp [hc, Finset.mem_insert, Finset.mem_erase, hn]
  · intro k hk
    obtain ⟨j, rfl⟩ : ∃ j, k = j + 1 := ⟨k - 1, by omega⟩
    show fwRotateIter j (fwRotate fsFresh) = _
    rw [show fwRotate fsFresh = { currentExists := true, backups := ({1} : Finset Nat) }
      from by decide]
    exact hfix j

/-- Witness for the amended C8: a write at the threshold triggers rotation
with the counter reset, and three rotations leave exactly `<path>.1`. -/
theorem rotation_single_backup_witness :
    fwWrite fwAtThreshold fsFresh
      = ({ fwAtThreshold with count := 0, fileOpen := true }, fwRotate fsFresh) ∧
      fwRotateIter 3 fsFresh = { currentExists := true, backups := {1} } :=
  ⟨rotation_single_backup.1 fwAtThreshold fsFresh (by decide) (by decide) (by decide),
   rotation_single_backup.2.2 3 (by decide)⟩

/-- C4 counterexample: with TID 10 already in the kernel map before the
call, `Register(7)` over the thread list `[10, 11]` with the insert of 11
failing rolls back by deleting the whole thread list, so the kernel map
ends empty — not restored to its pre-call contents `{10}`. -/
theorem registerPID_rollback_not_restoring :
    (registerPID envRollbackCex stRollbackCex 7).1 = .error .kernelMapError ∧
      (registerPID envRollbackCex stRollbackCex 7).2.kmap ≠ stRollbackCex.kmap := by
  decide

/-- C4 amended: `Register(pid)` fails with `AlreadyRegistered` when the pid
is registered and with `NotFound` when `/proc/<pid>/task` is missing, each
leaving the state unchanged; when some kernel-map insert fails it fails
with `KernelMapError`, the registry is unchanged and the kernel map ends
as its pre-call contents **minus the whole read thread list** (every TID
this call inserted is deleted again, but thread-list TIDs present before
the call are deleted too); on success it returns the thread count and the
registry gains exactly the entry for pid. -/
theorem registerPID_semantics (env : PidEnv) (st : PState) (pid : Nat) :
    ((regLookup pid st.registry).isSome = true →
        registerPID env st pid = (.error .alreadyRegistered, st)) ∧
    (regLookup pid st.registry = none → env.procTask pid = none →
        registerPID env st pid = (.error .notFound, st)) ∧
    (∀ tids, regLookup pid st.registry = none → env.procTask pid = some tids →
        (∃ t ∈ tids, env.insertFails t = true) →
        registerPID env st pid =
          (.error .kernelMapError,
            { registry := st.registry, kmap := st.kmap \ tids.toFinset })) ∧
    (∀ tids, regLookup pid st.registry = none → env.procTask pid = some tids →
        (∀ t ∈ tids, env.insertFails t = false) →
        registerPID env st pid =
          (.ok tids.length,
            { registry := st.registry ++ [(pid, tids)],
              kmap := st.kmap ∪ tids.toFinset })) := by
  refine ⟨?_, ?_, ?_, ?_⟩
  · intro h
    unfold registerPID
    rw [if_pos h]
  · intro h1 h2
    simp [registerPID, h1, h2]
  · intro tids h1 h2 hex
    obtain ⟨m', hm'⟩ := insertTids_error_exists env tids st.kmap hex
    have hroll := insertTids_error_rollback env tids st.kmap m' hm'
    simp [registerPID, h1, h2, hm']
    exact hroll
  · intro tids h1 h2 hall
    have hok := insertTids_all_ok env tids st.kmap hall
    simp [registerPID, h1, h2, hok]

/-- Witness for the amended C4: the rollback case evaluated on the
fixture — error `KernelMapError` and final kernel map `{10} \ {10, 11}`. -/
theorem registerPID_semantics_witness :
    registerPID envRollbackCex stRollbackCex 7 =
      (.error .kernelMapError,
        { registry := stRollbackCex.registry,
          kmap := stRollbackCex.kmap \ ([10, 11] : List Nat).toFinset }) :=
  (registerPID_semantics envRollbackCex stRollbackCex 7).2.2.1 [10, 11]
    (by decide) (by decide) (by decide)

theorem regLookup_filter_none (q : Nat × List Nat → Bool) (p : Nat) :
    ∀ l, regLookup p l = none → regLookup p (l.filter q) = none := by
  intro l
  induction l with
  | nil => intro _; simp [regLookup]
  | cons e rest ih =>
    intro h
    by_cases he : e.1 = p
    · simp [regLookup, he] at h
    · have h' : regLookup p rest = none := by simpa [regLookup, he] using h
      by_cases hq : q e
      · simp [List.filter_cons, hq, regLookup, he, ih h']
      · simp [List.filter_cons, hq, ih h']

set_option maxRecDepth 10000 in
/-- Witness for the amended C6: a 3-byte record is rejected per the iff,
and a 310-byte record decodes identically to its first 304 bytes. -/
theorem decoder_rejects_short_witness :
    (decodeWriteEvent (List.replicate 3 0) = none ↔
        (List.replicate 3 0).length < WRITE_EVENT_SIZE) ∧
      decodeWriteEvent (List.replicate 310 7)
        = decodeWriteEvent ((List.replicate 310 7).take WRITE_EVENT_SIZE) :=
  ⟨(decoder_rejects_short_records (List.replicate 3 0)).1,
   (decoder_rejects_short_records (List.replicate 310 7)).2 (by decide)⟩

/-! ### Helper lemmas about the liveness sweep -/

theorem eraseDead_mono (alive : Nat → Bool) :
    ∀ (es : List (Nat × List Nat)) (m : Finset Nat) (x : Nat),
      x ∉ m → x ∉ eraseDeadTids alive es m := by
  intro es
  induction es with
  | nil => intro m x hx; exact hx
  | cons e rest ih =>
    intro m x hx
    show x ∉ eraseDeadTids alive rest (if alive e.1 = true then m else deleteTids m e.2)
    apply ih
    by_cases ha : alive e.1 = true
    · rwa [if_pos ha]
    · rw [if_neg ha, deleteTids_eq_sdiff]
      exact fun hmem => hx (Finset.mem_sdiff.mp hmem).1

theorem eraseDead_hits (alive : Nat → Bool) :
    ∀ (es : List (Nat × List Nat)) (m : Finset Nat) (e : Nat × List Nat),
      e ∈ es → alive e.1 = false → ∀ x ∈ e.2, x ∉ eraseDeadTids alive es m := by
  intro es
  induction es with
  | nil => intro m e he; simp at he
  | cons f rest ih =>
    intro m e he hdead x hx
    rcases List.mem_cons.mp he with rfl | he
    · show x ∉ eraseDeadTids alive rest (if alive e.1 = true then m else deleteTids m e.2)
      apply eraseDead_mono
      rw [if_neg (by simp [hdead]), deleteTids_eq_sdiff]
      exact fun hmem => (Finset.mem_sdiff.mp hmem).2 (List.mem_toFinset.mpr hx)
    · exact ih _ e he hdead x hx

theorem sweep_step_gone (alive : Nat → Bool) (st : PState) (p : Nat)
    (tids : List Nat)
    (h1 : regLookup p st.registry = none) (h2 : ∀ x ∈ tids, x ∉ st.kmap) :
    regLookup p (checkLiveness alive st).registry = none ∧
      ∀ x ∈ tids, x ∉ (checkLiveness alive st).kmap :=
  ⟨regLookup_filter_none _ p st.registry h1,
   fun x hx => eraseDead_mono alive st.registry st.kmap x (h2 x hx)⟩

theorem sweep_step_removes (alive : Nat → Bool) (st : PState) (p : Nat)
    (tids : List Nat)
    (hdead : alive p = false) (hlook : regLookup p st.registry = some tids) :
    regLookup p (checkLiveness alive st).registry = none ∧
      ∀ x ∈ tids, x ∉ (checkLiveness alive st).kmap :=
  ⟨regLookup_filter_of_dead alive p hdead st.registry,
   fun x hx => eraseDead_hits alive st.registry st.kmap (p, tids)
     (regLookup_mem p tids st.registry hlook) hdead x hx⟩

theorem sweep_step_either (alive : Nat → Bool) (st : PState) (p : Nat)
    (tids : List Nat)
    (h : regLookup p st.registry = some tids ∨
      (regLookup p st.registry = none ∧ ∀ x ∈ tids, x ∉ st.kmap)) :
    regLookup p (checkLiveness alive st).registry = some tids ∨
      (regLookup p (checkLiveness alive st).registry = none ∧
        ∀ x ∈ tids, x ∉ (checkLiveness alive st).kmap) := by
  rcases h with hlook | ⟨hnone, hgone⟩
  · rcases Bool.eq_false_or_eq_true (alive p) with hlive | hdead
    · left
      rw [show (checkLiveness alive st).registry
          = st.registry.filter (fun e => alive e.1) from rfl]
      rw [regLookup_filter_of_alive alive p hlive st.registry]
      exact hlook
    · exact Or.inr (sweep_step_removes alive st p tids hdead hlook)
  · exact Or.inr (sweep_step_gone alive st p tids hnone hgone)

theorem sweep_fold_either (aliveAt : Nat → Nat → Bool) (p : Nat) (tids : List Nat) :
    ∀ (us : List Nat) (st : PState),
      (regLookup p st.registry = some tids ∨
        (regLookup p st.registry = none ∧ ∀ x ∈ tids, x ∉ st.kmap)) →
      (regLookup p
          (us.foldl (fun st u => checkLiveness (aliveAt u) st) st).registry = some tids ∨
        (regLookup p
            (us.foldl (fun st u => checkLiveness (aliveAt u) st) st).registry = none ∧
          ∀ x ∈ tids,
            x ∉ (us.foldl (fun st u => checkLiveness (aliveAt u) st) st).kmap)) := by
  intro us
  induction us with
  | nil => intro st h; exact h
  | cons u rest ih =>
    intro st h
    exact ih (checkLiveness (aliveAt u) st) (sweep_step_either (aliveAt u) st p tids h)

theorem sweep_fold_gone (aliveAt : Nat → Nat → Bool) (p : Nat) (tids : List Nat) :
    ∀ (us : List Nat) (st : PState),
      regLookup p st.registry = none → (∀ x ∈ tids, x ∉ st.kmap) →
      regLookup p
          (us.foldl (fun st u => checkLiveness (aliveAt u) st) st).registry = none ∧
        ∀ x ∈ tids,
          x ∉ (us.foldl (fun st u => checkLiveness (aliveAt u) st) st).kmap := by
  intro us
  induction us with
  | nil => intro st h1 h2; exact ⟨h1, h2⟩
  | cons u rest ih =>
    intro st h1 h2
    obtain ⟨h1n, h2n⟩ := sweep_step_gone (aliveAt u) st p tids h1 h2
    exact ih (checkLiveness (aliveAt u) st) h1n h2n

/-- C9 counterexample: `main` hardcodes the liveness check interval to 5
seconds (`pidmgr.New(..., 5*time.Second)`), ignoring the configured
`--tracking-interval`. With `--tracking-interval 1`, a parent dead from
time 6 is still registered, and its TID still in the kernel map, at time
7 = death + one tracking interval: the next sweep only runs at time 10. -/
theorem liveness_not_within_tracking_interval :
    cfgInterval1.trackingIntervalSec = 1 ∧
      livenessCheckIntervalSec cfgInterval1 ≠ cfgInterval1.trackingIntervalSec ∧
      aliveAtCex 6 7 = false ∧
      regLookup 7
          (stateAt aliveAtCex stLivenessCex
            (6 + cfgInterval1.trackingIntervalSec)).registry = some [10] ∧
      10 ∈ (stateAt aliveAtCex stLivenessCex
          (6 + cfgInterval1.trackingIntervalSec)).kmap := by decide

/-- C9 amended: within one liveness check interval — hardcoded to 5
seconds in `cmd/tracer/main.go`, not the configured `--tracking-interval`
— after a registered parent dies, the sweep has removed all of that
parent's recorded TIDs from the kernel TID map and removed the parent's
registry entry. -/
theorem liveness_removed_within_hardcoded_interval
    (aliveAt : Nat → Nat → Bool) (st0 : PState) (p : Nat) (tids : List Nat)
    (t v : Nat)
    (hreg : regLookup p st0.registry = some tids)
    (hdead : ∀ u, t ≤ u → aliveAt u p = false)
    (hv : t + mainCheckIntervalSec ≤ v) :
    regLookup p (stateAt aliveAt st0 v).registry = none ∧
      ∀ x ∈ tids, x ∉ (stateAt aliveAt st0 v).kmap := by
  have h5 : mainCheckIntervalSec = 5 := rfl
  rw [h5] at hv
  set u0 := 5 * (t / 5 + 1) with hu0
  have hlt : t < u0 := by omega
  have hle : u0 ≤ t + 5 := by omega
  have hsweep : isSweepTime u0 = true := by
    have h0 : u0 % 5 = 0 := by omega
    have h1 : u0 ≠ 0 := by omega
    simp [isSweepTime, mainCheckIntervalSec, h0, h1]
  have hmem : u0 ∈ sweepTimesUpTo v := by
    unfold sweepTimesUpTo
    exact List.mem_filter.mpr ⟨List.mem_range.mpr (by omega), hsweep⟩
  obtain ⟨l1, l2, hsplit⟩ := List.append_of_mem hmem
  unfold stateAt
  rw [hsplit, List.foldl_append, List.foldl_cons]
  have hA := sweep_fold_either aliveAt p tids l1 st0 (Or.inl hreg)
  set stA := l1.foldl (fun st u => checkLiveness (aliveAt u) st) st0 with hstA
  have hdeadA : aliveAt u0 p = false := hdead u0 (by omega)
  have hB : regLookup p (checkLiveness (aliveAt u0) stA).registry = none ∧
      ∀ x ∈ tids, x ∉ (checkLiveness (aliveAt u0) stA).kmap := by
    rcases hA with hAl | ⟨hA1, hA2⟩
    · exact sweep_step_removes (aliveAt u0) stA p tids hdeadA hAl
    · exact sweep_step_gone (aliveAt u0) stA p tids hA1 hA2
  exact sweep_fold_gone aliveAt p tids l2 (checkLiveness (aliveAt u0) stA) hB.1 hB.2

set_option maxRecDepth 10000 in
/-- Witness for the amended C9: parent 7 (recorded TID 10) dead from time
6 is gone from the registry and the kernel map at time 11. -/
theorem liveness_removed_witness :
    regLookup 7 (stateAt aliveAtCex stLivenessCex 11).registry = none ∧
      ∀ x ∈ ([10] : List Nat), x ∉ (stateAt aliveAtCex stLivenessCex 11).kmap :=
  liveness_removed_within_hardcoded_interval aliveAtCex stLivenessCex 7 [10] 6 11
    (by decide)
    (fun u hu => by simp only [aliveAtCex, decide_eq_false_iff_not]; omega)
    (by decide)

/-- C5: whenever `Register(p)` succeeds, the sequence
`Register(p); Unregister(p); Register(p)` succeeds, and the final
`Register(p)` has the same observable semantics — same success result and
same resulting registry and kernel-map state, given the same `/proc`
snapshot and the same per-TID kernel-map behaviour (wall-clock
registration timestamps abstracted away) — as the first `Register(p)`. -/
theorem register_unregister_register_idempotent (env : PidEnv) (st st1 : PState)
    (p n : Nat) (h : registerPID env st p = (.ok n, st1)) :
    ∃ st2, unregisterPID st1 p = (.ok (), st2) ∧
      registerPID env st2 p = (.ok n, st1) := by
  unfold registerPID at h
  by_cases hl : (regLookup p st.registry).isSome
  · rw [if_pos hl] at h
    have := congrArg Prod.fst h
    simp at this
  · rw [if_neg hl] at h
    have hlnone : regLookup p st.registry = none := by
      cases hh : regLookup p st.registry
      · rfl
      · rw [hh] at hl; simp at hl
    cases hp : env.procTask p with
    | none =>
      simp only [hp] at h
      have := congrArg Prod.fst h
      simp at this
    | some tids =>
      simp only [hp] at h
      cases hi : insertTids env st.kmap tids with
      | error me =>
        simp only [hi] at h
        have := congrArg Prod.fst h
        simp at this
      | ok m' =>
        simp only [hi] at h
        obtain ⟨hall, hm'⟩ := insertTids_ok_inv env tids st.kmap m' hi
        have h1 : (Except.ok tids.length : Except RegErr Nat) = .ok n :=
          congrArg Prod.fst h
        have hn : tids.length = n := by
          injection h1
        have h2 : ({ registry := st.registry ++ [(p, tids)], kmap := m' } : PState)
            = st1 := congrArg Prod.snd h
        subst hn
        subst h2
        have hfilt : (st.registry ++ [(p, tids)]).filter (fun e => e.1 ≠ p)
            = st.registry := by
          rw [List.filter_append, regLookup_none_filter p st.registry hlnone]
          simp
        have hunreg : unregisterPID
            { registry := st.registry ++ [(p, tids)], kmap := m' } p
            = (.ok (), { registry := st.registry, kmap := deleteTids m' tids }) := by
          simp only [unregisterPID, regLookup_append_self p tids st.registry hlnone]
          rw [hfilt]
        have hkm : deleteTids m' tids ∪ tids.toFinset = m' := by
          rw [deleteTids_eq_sdiff, hm']
          ext x
          simp [Finset.mem_sdiff, Finset.mem_union]
          try tauto
        have hreg2 : registerPID env
            { registry := st.registry, kmap := deleteTids m' tids } p
            = (.ok tids.length,
                { registry := st.registry ++ [(p, tids)], kmap := m' }) := by
          have hin := insertTids_all_ok env tids (deleteTids m' tids) hall
          simp only [registerPID, hlnone, Option.isSome_none, Bool.false_eq_true,
            if_false, hp, hin, hkm]
        exact ⟨_, hunreg, hreg2⟩

set_option maxRecDepth 10000 in
/-- Witness for C5: from the empty state, registering PID 7 (threads
10 and 11), unregistering and re-registering reproduces the same result
and state. -/
theorem register_unregister_register_witness :
    ∃ st2, unregisterPID st1W 7 = (.ok (), st2) ∧
      registerPID envOkW st2 7 = (.ok 2, st1W) :=
  register_unregister_register_idempotent envOkW
    { registry := [], kmap := ∅ } st1W 7 2 (by rfl)

end WriteTracer
